import Mathlib

/-!
Verification of the mini-rag document store, search engine and RAG
orchestration (backend/app/services: simple_document_store.py,
document_processor.py, rag_service.py, azure_ai.py; configuration from
config.py).

Python strings are embedded as `List Char`; Python `str` methods used by the
code (`lower`, `strip`, `split`, `rfind`, slicing, `in`) are defined below
with Python's semantics.  `str.lower` is modelled by `Char.toLower`, which
lowercases the ASCII range; every string the code compares case-insensitively
in the analysed paths is ASCII or Chinese (caseless), so this is faithful.
Machine integers do not overflow here (Python ints are unbounded); loop
indices that can go negative in Python are modelled as `Int`.
-/

namespace MiniRag

/-- Python strings, as lists of characters. -/
abbrev Str := List Char

/-- Coerce a Lean string literal into the model. -/
def strOf (s : String) : Str := s.toList

/-- Python `str.isspace` relevant set: the six ASCII whitespace characters
stripped by `str.strip()` (the analysed inputs contain no exotic Unicode
whitespace). -/
def pyIsSpace (c : Char) : Bool :=
  c == ' ' || c == '\t' || c == '\n' || c == '\r' || c == '\x0b' || c == '\x0c'

/-- Python `s.strip()`: drop leading and trailing whitespace. -/
def pyStrip (s : Str) : Str :=
  ((s.dropWhile pyIsSpace).reverse.dropWhile pyIsSpace).reverse

/-- Python `s.strip(chars)`: drop leading and trailing characters drawn from
`cs`. -/
def stripChars (cs : List Char) (s : Str) : Str :=
  ((s.dropWhile (cs.contains ·)).reverse.dropWhile (cs.contains ·)).reverse

/-- Python `s.lower()` (ASCII range, see module comment). -/
def lower (s : Str) : Str := s.map Char.toLower

/-- Python substring test `needle in hay` (true for the empty needle). -/
def inStr (needle : Str) : Str → Bool
  | [] => needle.isEmpty
  | c :: rest => needle.isPrefixOf (c :: rest) || inStr needle rest

/-- Python `s.split()` (no separator): split on whitespace runs, no empty
fields. -/
def splitWs (s : Str) : List Str :=
  (s.splitOnP pyIsSpace).filter (fun w => !w.isEmpty)

/-- Python `s.split('\n')`. -/
def splitNl (s : Str) : List Str := s.splitOn '\n'

/-- Python `s.split(sep)` for a non-empty separator string: scan left to
right, cutting at each non-overlapping occurrence of `sep`.  `acc` holds the
current field reversed; `skip` counts separator characters still to be
consumed after a cut (the recursion is structural on the scanned string so
that the kernel can evaluate it). -/
def splitSeqGo (sep : Str) : Str → Nat → Str → List Str
  | acc, _, [] => [acc.reverse]
  | acc, k + 1, _ :: rest => splitSeqGo sep acc k rest
  | acc, 0, c :: rest =>
    if !sep.isEmpty && sep.isPrefixOf (c :: rest) then
      acc.reverse :: splitSeqGo sep [] (sep.length - 1) rest
    else
      splitSeqGo sep (c :: acc) 0 rest

def splitSeq (sep : Str) (s : Str) : List Str := splitSeqGo sep [] 0 s

/-- Python `s.split(sep, maxsplit)`: as `splitSeq` but performing at most `n`
cuts; once the budget is exhausted the remainder (separators included) is the
final field. -/
def splitSeqNGo (sep : Str) : Str → Nat → Nat → Str → List Str
  | acc, _, _, [] => [acc.reverse]
  | acc, k + 1, n, _ :: rest => splitSeqNGo sep acc k n rest
  | acc, 0, 0, rest => [acc.reverse ++ rest]
  | acc, 0, n + 1, c :: rest =>
    if !sep.isEmpty && sep.isPrefixOf (c :: rest) then
      acc.reverse :: splitSeqNGo sep [] (sep.length - 1) n rest
    else
      splitSeqNGo sep (c :: acc) 0 (n + 1) rest

def splitSeqN (sep : Str) (n : Nat) (s : Str) : List Str := splitSeqNGo sep [] 0 n s

/-- `context[:400] + "..." if len(context) > 400 else context`. -/
def truncEllipsis (n : Nat) (s : Str) : Str :=
  if n < s.length then s.take n ++ strOf "..." else s

/-- Decimal rendering of a natural, for `f"...{i}..."` interpolation. -/
def natStr (n : Nat) : Str := (Nat.repr n).toList

/-- Python slice-index normalisation: negative indices count from the end,
then the index is clamped to `[0, len]`. -/
def normIdx (len : Nat) (i : Int) : Nat :=
  if i < 0 then ((len : Int) + i).toNat else min i.toNat len

/-- Python `s[a:b]` with int (possibly negative) bounds. -/
def pySlice (s : Str) (a b : Int) : Str :=
  (s.take (normIdx s.length b)).drop (normIdx s.length a)

/-- Last index at which `c` occurs in `s`, if any. -/
def lastIdxOf (c : Char) (s : Str) : Option Nat :=
  ((s.enum.filter (fun p => p.2 == c)).map Prod.fst).getLast?

/-- Python `s.rfind(c, a, b)`: highest absolute index `i` with
`a ≤ i < b` (slice-normalised) and `s[i] = c`, or `-1`. -/
def pyRfind (c : Char) (s : Str) (a b : Int) : Int :=
  match lastIdxOf c (pySlice s a b) with
  | some i => (normIdx s.length a : Int) + i
  | none => -1

/-!
### Text chunker
`SimpleDocumentStore._split_text_into_chunks` (simple_document_store.py,
lines 97-126); `DocumentProcessor.split_text_into_chunks`
(document_processor.py, lines 94-123) is the same algorithm with explicit
size arguments.  The Python `while` loop is modelled with fuel: `none` means
the fuel was exhausted before the loop exited, and the loop body is `chunkBody`.
`start` is an `Int` because `end - chunk_overlap` can go negative in Python.
-/

/-- One iteration of the chunking loop body: from the current window start,
compute the produced (stripped) chunk and the next window start.
Mirrors lines 109-122 of simple_document_store.py. -/
def chunkBody (cs co : Nat) (text : Str) (start : Int) : Str × Int :=
  let end0 : Int := start + (cs : Int)
  let endF : Int :=
    if end0 < (text.length : Int) then
      let lp := pyRfind '.' text start end0
      if lp ≠ -1 ∧ start + ((cs / 2 : Nat) : Int) < lp then lp + 1 else end0
    else end0
  (pyStrip (pySlice text start endF), endF - (co : Int))

/-- The `while start < len(text)` loop of `_split_text_into_chunks`,
with fuel counting executed iterations. -/
def chunkLoop (cs co : Nat) (text : Str) : Nat → Int → List Str → Option (List Str)
  | 0, start, chunks =>
    if start < (text.length : Int) then none else some chunks
  | fuel + 1, start, chunks =>
    if start < (text.length : Int) then
      let p := chunkBody cs co text start
      let chunks' := if p.1.isEmpty then chunks else chunks ++ [p.1]
      if (text.length : Int) ≤ p.2 then some chunks'
      else chunkLoop cs co text fuel p.2 chunks'
    else some chunks

/-- `_split_text_into_chunks(text)` with chunk size `cs` and overlap `co`
(`settings.chunk_size = 1000`, `settings.chunk_overlap = 200` by default). -/
def splitTextIntoChunks (cs co fuel : Nat) (text : Str) : Option (List Str) :=
  if text.length ≤ cs then some [text] else chunkLoop cs co text fuel 0 []

/-!
### Keyword extractor
`SimpleDocumentStore._extract_keywords` (simple_document_store.py,
lines 128-141).
-/

/-- The fixed bilingual stop-word list. -/
def stopWords : List Str :=
  [strOf "的", strOf "是", strOf "在", strOf "有", strOf "和", strOf "与",
   strOf "或", strOf "但", strOf "然后", strOf "如何", strOf "什么",
   strOf "怎么", strOf "怎样",
   strOf "how", strOf "to", strOf "what", strOf "is", strOf "are",
   strOf "the", strOf "a", strOf "an", strOf "and", strOf "or",
   strOf "but", strOf "then"]

/-- The punctuation characters stripped from each token:
`'.,!?;:()[]\x7b\x7d"'-'` (the Python literal `'.,!?;:()[]{}"\'-'`). -/
def punctChars : List Char :=
  ['.', ',', '!', '?', ';', ':', '(', ')', '[', ']',
   Char.ofNat 123, Char.ofNat 125, Char.ofNat 34, Char.ofNat 39, '-']

/-- `_extract_keywords(query)`: split on whitespace, strip punctuation,
keep lowercased tokens of length ≥ 2 that are not stop words
(duplicates kept, in encounter order). -/
def extractKeywords (query : Str) : List Str :=
  (splitWs query).filterMap fun w =>
    let w' := stripChars punctChars w
    if 2 ≤ w'.length ∧ ¬ stopWords.contains (lower w') then some (lower w')
    else none

/-!
### Document store state
`SimpleDocumentStore` keeps an in-memory index `documents_index`
(a Python dict: insertion-ordered, unique keys) and one rendered markdown
artifact per document on disk.  The index is modelled as an association
list and the file system as an association list from path to content;
a path absent from `files` is an unreadable artifact.
The free-form `metadata` dict stored alongside each record is never read
by search, listing or deletion and is omitted from the record model.
-/

/-- One index record (the value stored in `documents_index`). -/
structure DocInfo where
  filename : Str
  markdown_file : Str
  upload_time : Str
  content_length : Nat
  chunks_count : Nat
deriving DecidableEq

/-- Store state: the documents index plus the markdown artifacts on disk. -/
structure Store where
  index : List (Str × DocInfo)
  files : List (Str × Str)
deriving DecidableEq

/-- Read an artifact (`os.path.exists` + `open(...).read()`); `none` means
missing/unreadable. -/
def fsRead (files : List (Str × Str)) (path : Str) : Option Str :=
  List.lookup path files

/-- Write (create or overwrite) a file. -/
def fsWrite (files : List (Str × Str)) (path content : Str) : List (Str × Str) :=
  files.filter (fun e => ¬ e.1 = path) ++ [(path, content)]

/-!
### Search engine
`SimpleDocumentStore.search_documents` (simple_document_store.py,
lines 143-233).
-/

/-- A search result: `{content, metadata: {document_id, source, upload_time},
score}`. -/
structure SearchResult where
  content : Str
  document_id : Str
  source : Str
  upload_time : Str
  score : Nat
deriving DecidableEq

/-- The keyword-matching loop (lines 170-174): `score += 3` for every entry
of the keyword list that occurs in the lowercased content. -/
def keywordScore (kws : List Str) (content_lower : Str) : Nat :=
  kws.foldl (fun s kw => if inStr kw content_lower then s + 3 else s) 0

/-- The document score (lines 163-174): 10 for an exact-phrase hit plus the
keyword contribution. -/
def docScore (query_lower : Str) (kws : List Str) (content_lower : Str) : Nat :=
  (if inStr query_lower content_lower then 10 else 0) + keywordScore kws content_lower

/-- Line-match test (lines 183-194): exact phrase in the line, or ≥ 2
keyword hits, or ≥ 1 keyword hit when the query has ≤ 2 keywords. -/
def lineMatches (query_lower : Str) (kws : List Str) (line : Str) : Bool :=
  let ll := lower line
  if inStr query_lower ll then true
  else
    let hits := kws.countP (fun kw => inStr kw ll)
    decide (2 ≤ hits) || (decide (1 ≤ hits) && decide (kws.length ≤ 2))

/-- Context window around line `i` (lines 197-200): lines `[i-3, i+4)`
clamped, joined by newlines, stripped. -/
def lineContext (lines : List Str) (i : Nat) : Str :=
  let s := i - 3
  let e := min lines.length (i + 4)
  pyStrip (List.intercalate ['\n'] ((lines.drop s).take (e - s)))

/-- The per-line context collection (lines 179-202): for each matching line,
keep its context window when non-empty and longer than 10 characters,
truncated at 400 characters. -/
def relevantLineChunks (query_lower : Str) (kws : List Str) (lines : List Str) : List Str :=
  lines.enum.filterMap fun p =>
    if lineMatches query_lower kws p.2 then
      let context := lineContext lines p.1
      if ¬ context = [] ∧ 10 < context.length then some (truncEllipsis 400 context)
      else none
    else none

/-- The blank-line-section fallback (lines 204-212): sections containing at
least one keyword, truncated at 400 characters. -/
def sectionChunks (kws : List Str) (content : Str) : List Str :=
  (splitSeq (strOf "\n\n") content).filterMap fun sec =>
    if 1 ≤ kws.countP (fun kw => inStr kw (lower sec)) then
      some (truncEllipsis 400 sec)
    else none

/-- Processing of one readable document (lines 161-225): `none` when the
document is skipped (score 0 or no relevant chunk), otherwise the emitted
search result. -/
def searchDoc (query_lower : Str) (kws : List Str) (doc_id : Str) (info : DocInfo)
    (content : Str) : Option SearchResult :=
  let content_lower := lower content
  let score := docScore query_lower kws content_lower
  if 0 < score then
    let lines := splitNl content
    let lineChunks := relevantLineChunks query_lower kws lines
    let chunks := if lineChunks.isEmpty then sectionChunks kws content else lineChunks
    if chunks.isEmpty then none
    else some { content := List.intercalate (strOf "\n\n") (chunks.take 3),
                document_id := doc_id, source := info.filename,
                upload_time := info.upload_time, score := score }
  else none

/-- The per-document scan (lines 152-229): documents whose artifact is
unreadable are skipped, the rest go through `searchDoc`. -/
def searchEmitted (st : Store) (query : Str) : List SearchResult :=
  let ql := lower query
  let kws := extractKeywords ql
  st.index.filterMap fun e =>
    match fsRead st.files e.2.markdown_file with
    | none => none
    | some content => searchDoc ql kws e.1 e.2 content

/-- Comparator of `results.sort(key=lambda x: x["score"], reverse=True)`:
descending by score (Python's sort is stable). -/
def resultLE (a b : SearchResult) : Bool := b.score ≤ a.score

/-- `search_documents(query, max_results)` (lines 143-233): emit, sort by
score descending (stable), truncate. -/
def searchDocuments (st : Store) (query : Str) (max_results : Nat) : List SearchResult :=
  ((searchEmitted st query).mergeSort resultLE).take max_results

/-- The search method as a state transformer on the store: the Python method
only reads `self.documents_index` and the artifacts, so the state passes
through unchanged. -/
def searchDocumentsS (st : Store) (query : Str) (max_results : Nat) :
    Store × List SearchResult :=
  (st, searchDocuments st query max_results)

/-!
### Listing and deletion
`SimpleDocumentStore.get_all_documents` (lines 235-264) and
`SimpleDocumentStore.delete_document` (lines 266-286).
-/

/-- Preview extraction for listing (lines 245-252): the text between the
first and second `---` markers, stripped, truncated at 500 characters. -/
def contentPreview (content : Str) : Str :=
  let parts := splitSeqN (strOf "---") 2 content
  if 2 < parts.length then truncEllipsis 500 (pyStrip (parts.getD 1 []))
  else []

/-- `get_all_documents()`: one `(id, content preview, record)` triple per
index record; a missing artifact yields an empty preview. -/
def getAllDocuments (st : Store) : List (Str × Str × DocInfo) :=
  st.index.map fun e =>
    let preview :=
      match fsRead st.files e.2.markdown_file with
      | some content => contentPreview content
      | none => []
    (e.1, preview, e.2)

/-- `delete_document(document_id)`: remove artifact (ignore-if-absent) and
index entry when the id is present, report whether it was. -/
def deleteDocument (st : Store) (doc_id : Str) : Store × Bool :=
  match List.lookup doc_id st.index with
  | some info =>
    ({ index := st.index.filter (fun e => ¬ e.1 = doc_id),
       files := st.files.filter (fun e => ¬ e.1 = info.markdown_file) }, true)
  | none => (st, false)

/-!
### Upload validation and ingestion
`DocumentProcessor.validate_file` / `save_file` (document_processor.py,
lines 20-43), `SimpleDocumentStore.add_document` (simple_document_store.py,
lines 40-95) and `RAGService.upload_document` (rag_service.py, lines 21-79).
Text extraction, the clock and uuid generation are external collaborators
and enter as parameters of `UploadEnv`.
-/

/-- The configuration fields the ingestion path reads
(config.py: `chunk_size = 1000`, `chunk_overlap = 200`,
`max_file_size = 10485760`, `allowed_extensions = "pdf,txt,docx,md"`). -/
structure AppSettings where
  chunk_size : Nat
  chunk_overlap : Nat
  max_file_size : Nat
  allowed_extensions : Str
deriving DecidableEq

/-- `settings.allowed_extensions_list`:
`[ext.strip() for ext in allowed_extensions.split(",")]`. -/
def allowedExtensionsList (s : AppSettings) : List Str :=
  (splitSeq [','] s.allowed_extensions).map pyStrip

/-- `pathlib.PurePath(p).name`: the final path component. -/
def pathName (p : Str) : Str := (List.splitOn '/' p).getLastD p

/-- `pathlib.PurePath(p).suffix`: `name[i:]` for the last dot at position
`0 < i < len(name) - 1`, else the empty string. -/
def pathSuffix (p : Str) : Str :=
  let name := pathName p
  match lastIdxOf '.' name with
  | some i => if 0 < i ∧ i < name.length - 1 then name.drop i else []
  | none => []

/-- `Path(filename).suffix.lower().lstrip(".")` (validate_file, line 35). -/
def fileExtension (filename : Str) : Str :=
  (lower (pathSuffix filename)).dropWhile (· == '.')

/-- `validate_file(filename, file_size)` (lines 33-43): `(ok, message)`. -/
def validateFile (s : AppSettings) (filename : Str) (file_size : Nat) : Bool × Str :=
  let ext := fileExtension filename
  if ¬ (allowedExtensionsList s).contains ext then
    (false, strOf "File type ." ++ ext ++ strOf " not allowed. Allowed types: " ++
      List.intercalate (strOf ", ") (allowedExtensionsList s))
  else if s.max_file_size < file_size then
    (false, strOf "File size " ++ natStr file_size ++
      strOf " exceeds maximum allowed size " ++ natStr s.max_file_size)
  else (true, strOf "Valid file")

/-- The markdown artifact rendered by `add_document` (lines 50-75): header,
original content, then one section per chunk. -/
def renderMarkdown (filename doc_id now : Str) (content : Str)
    (chunks : List Str) : Str :=
  let header :=
    strOf "# " ++ filename ++ strOf "\n\n**文档ID**: " ++ doc_id ++
    strOf "\n**上传时间**: " ++ now ++ strOf "\n**文件大小**: " ++
    natStr content.length ++ strOf " 字符\n**分块数量**: " ++
    natStr chunks.length ++ strOf "\n\n---\n\n" ++ content ++
    strOf "\n\n---\n\n## 文档分块\n\n"
  chunks.enum.foldl
    (fun acc p =>
      acc ++ strOf "### 分块 " ++ natStr (p.1 + 1) ++ strOf "\n\n" ++ p.2 ++
      strOf "\n\n---\n\n")
    header

/-- `add_document(document_id, filename, content, metadata)` (lines 40-95):
chunk, render and write the artifact, insert the index record.  `none`
propagates chunker non-termination (fuel exhaustion); the modelled body has
no other failure path, so the Python `return False` branch (only reachable
through an I/O exception) does not appear. -/
def addDocument (s : AppSettings) (fuel : Nat) (mdDir now : Str) (st : Store)
    (doc_id filename content : Str) : Option Store :=
  match splitTextIntoChunks s.chunk_size s.chunk_overlap fuel content with
  | none => none
  | some chunks =>
    let mdFile := mdDir ++ strOf "/" ++ doc_id ++ strOf ".md"
    let info : DocInfo :=
      { filename := filename, markdown_file := mdFile, upload_time := now,
        content_length := content.length, chunks_count := chunks.length }
    let index' :=
      if (st.index.map Prod.fst).contains doc_id then
        st.index.map (fun e => if e.1 = doc_id then (doc_id, info) else e)
      else st.index ++ [(doc_id, info)]
    some { index := index',
           files := fsWrite st.files mdFile (renderMarkdown filename doc_id now content chunks) }

/-- Whole-system ingestion state: the document store plus the raw uploads
directory. -/
structure SysState where
  store : Store
  uploads : List (Str × Str)
deriving DecidableEq

/-- External collaborators of the ingestion path: generated ids, the clock,
the format-specific text extractor, and the configured directories. -/
structure UploadEnv where
  settings : AppSettings
  file_uuid : Str
  document_id : Str
  now : Str
  extract : Str → Except Str Str
  uploadsDir : Str
  mdDir : Str

/-- Outcome reported by `upload_document`. -/
inductive UploadOutcome where
  | success (document_id : Str)
  | uploadError (msg : Str)
deriving DecidableEq

/-- `RAGService.upload_document(file_content, filename)` (lines 21-79):
validate, save the raw file, extract text, store the document.  Every
exception is caught and re-raised as `"Error processing document: ..."`,
with best-effort removal of the raw file when it was already saved.
`none` propagates chunker non-termination. -/
def uploadDocument (env : UploadEnv) (fuel : Nat) (st : SysState)
    (file_content filename : Str) : Option (SysState × UploadOutcome) :=
  let v := validateFile env.settings filename file_content.length
  if v.1 = false then
    -- raise ValueError(message): `file_path` is not in locals yet, so the
    -- handler performs no cleanup and no state was touched.
    some (st, .uploadError (strOf "Error processing document: " ++ v.2))
  else
    let rawPath := env.uploadsDir ++ strOf "/" ++ env.file_uuid ++ strOf "_" ++ filename
    let uploads1 := fsWrite st.uploads rawPath file_content
    match env.extract file_content with
    | .error e =>
      -- extraction failed after the raw file was saved: best-effort cleanup
      some ({ st with uploads := uploads1.filter (fun x => ¬ x.1 = rawPath) },
            .uploadError (strOf "Error processing document: " ++ e))
    | .ok text =>
      match addDocument env.settings fuel env.mdDir env.now st.store
          env.document_id filename text with
      | none => none
      | some store' =>
        some ({ store := store', uploads := uploads1 }, .success env.document_id)

/-!
### Answer generation
`AzureAIService.generate_response` / `_prepare_context` /
`_create_rag_prompt` (azure_ai.py, lines 35-125).  The service either
short-circuits with a fixed message, calls the OpenAI client, or produces the
development mock; `GenAction` records which.
-/

/-- The fixed no-relevant-information message (azure_ai.py, line 48). -/
def noContextMessage : Str :=
  strOf "Based on your uploaded documents, I cannot find relevant information to answer your question. Please ensure the relevant content has been uploaded to the knowledge base."

/-- `_prepare_context(documents)` (lines 88-100): one bracketed block per
document with non-empty stripped content, numbered from 1 over all
documents, joined by blank lines. -/
def prepareContext (docs : List SearchResult) : Str :=
  if docs.isEmpty then []
  else
    List.intercalate (strOf "\n\n")
      (docs.enum.filterMap fun p =>
        let c := pyStrip p.2.content
        if ¬ c = [] then
          some (strOf "[来源 " ++ natStr (p.1 + 1) ++ strOf ": " ++ p.2.source ++
                strOf "]\n" ++ c)
        else none)

/-- `_create_rag_prompt(query, context)` (lines 102-125). -/
def createRagPrompt (query context : Str) : Str :=
  if context = [] ∨ pyStrip context = [] then []
  else
    strOf "You are Virtual Mentor, a knowledge base assistant. Please answer the user" ++
    [Char.ofNat 39] ++
    strOf "s question strictly based on the provided context information.\n\nImportant rules:\n1. Only use the provided context information to answer questions\n2. Do not use your pre-trained knowledge to answer\n3. If there is no relevant information in the context, clearly state " ++
    [Char.ofNat 34] ++
    strOf "Based on the provided documents, I cannot find relevant information to answer this question" ++
    [Char.ofNat 34] ++
    strOf "\n4. When answering, please indicate which source the information comes from\n5. Answer in English only\n6. Be helpful, clear, and professional in your responses\n7. You may quote code examples or technical content exactly as it appears in the documents\n\nContext information:\n" ++
    context ++ strOf "\n\nUser question: " ++ query ++
    strOf "\n\nPlease answer based on the above context information:"

/-- What `generate_response` does before any network traffic. -/
inductive GenAction where
  | fixedMessage (msg : Str)
  | invokeOpenAI (prompt : Str)
  | mockResponse (query context : Str)
deriving DecidableEq

/-- `generate_response(query, context_documents)` (lines 35-61), up to the
point where an answer source is chosen: returning the fixed message, calling
the Azure OpenAI client, or producing the development mock. -/
def generateResponsePlan (query : Str) (docs : List SearchResult)
    (hasClient : Bool) : GenAction :=
  let context := prepareContext docs
  if context = [] ∨ pyStrip context = [] then .fixedMessage noContextMessage
  else
    let prompt := createRagPrompt query context
    if hasClient then .invokeOpenAI prompt else .mockResponse query context

/-!
### Concrete fixtures
Small closed states used to instantiate the theorems below on concrete
inputs.
-/

def demoInfo1 : DocInfo :=
  ⟨strOf "doc1.txt", strOf "md/d1.md", strOf "t1", 29, 1⟩

def demoInfo2 : DocInfo :=
  ⟨strOf "doc2.txt", strOf "md/d2.md", strOf "t2", 29, 1⟩

def demoInfo3 : DocInfo :=
  ⟨strOf "doc3.txt", strOf "md/d3.md", strOf "t3", 5, 1⟩

def demoInfo4 : DocInfo :=
  ⟨strOf "doc4.txt", strOf "md/d4.md", strOf "t4", 12, 1⟩

def demoContent : Str := strOf "hello world hello world hello"

def demoContent4 : Str := strOf "zzzz zzzz zzzz"

/-- Demo store: two readable documents with identical content, one stale
record whose artifact is missing, and one readable document matching
nothing interesting. -/
def demoStore : Store :=
  { index := [(strOf "d1", demoInfo1), (strOf "d2", demoInfo2),
              (strOf "d3", demoInfo3), (strOf "d4", demoInfo4)],
    files := [(strOf "md/d1.md", demoContent), (strOf "md/d2.md", demoContent),
              (strOf "md/d4.md", demoContent4)] }

def demoQuery : Str := strOf "hello"

def defaultResult : SearchResult := ⟨[], [], [], [], 0⟩

def demoResult1 : SearchResult := (searchEmitted demoStore demoQuery).getD 0 defaultResult

def demoResult2 : SearchResult := (searchEmitted demoStore demoQuery).getD 1 defaultResult

def demoSettings : AppSettings := ⟨1000, 200, 10485760, strOf "pdf,txt,docx,md"⟩

def demoEnv : UploadEnv :=
  { settings := demoSettings, file_uuid := strOf "u1", document_id := strOf "did1",
    now := strOf "t9", extract := fun _ => .ok (strOf "text"),
    uploadsDir := strOf "up", mdDir := strOf "md" }

def demoSys : SysState := ⟨demoStore, []⟩

/-- Text on which the chunk loop fails to advance although
`chunk_overlap < chunk_size` (7 letters, a period, 10 letters): with
`chunk_size = 10`, `chunk_overlap = 8` the window shrinks to the sentence
boundary at index 7 and the next start is `8 - 8 = 0` again. -/
def chunkCexText : Str := strOf "aaaaaaa.aaaaaaaaaa"

/-!
### General lemmas about the embedded string operations
-/

theorem foldl_score (p : Str → Bool) :
    ∀ (l : List Str) (n : Nat),
      l.foldl (fun s kw => if p kw then s + 3 else s) n = n + 3 * l.countP p := by
  intro l
  induction l with
  | nil => intro n; simp
  | cons x t ih =>
    intro n
    simp only [List.foldl_cons, List.countP_cons, ih]
    by_cases hx : p x
    · simp [hx]; omega
    · simp [hx]

/-- The keyword loop adds 3 once per list entry whose keyword occurs in the
content. -/
theorem keywordScore_eq_countP (kws : List Str) (cl : Str) :
    keywordScore kws cl = 3 * kws.countP (fun kw => inStr kw cl) := by
  simpa using foldl_score (fun kw => inStr kw cl) kws 0

/-- `inStr` decides the contiguous-substring relation. -/
theorem inStr_substring_iff (n : Str) : ∀ (h : Str), inStr n h = true ↔ n <:+: h := by
  intro h
  induction h with
  | nil => simp [inStr, List.isEmpty_iff]
  | cons c rest ih => simp [inStr, ih, List.infix_cons_iff]

theorem char_ofNat_toNat_valid (n : Nat) (h : n < 0xd800) :
    (Char.ofNat n).toNat = n := by
  rw [Char.ofNat, dif_pos (Or.inl h)]
  rfl

theorem char_toLower_idem (c : Char) : c.toLower.toLower = c.toLower := by
  simp only [Char.toLower]
  by_cases h : c.toNat ≥ 65 ∧ c.toNat ≤ 90
  · rw [if_pos h]
    have ht : (Char.ofNat (c.toNat + 32)).toNat = c.toNat + 32 :=
      char_ofNat_toNat_valid _ (by omega)
    rw [if_neg (by rw [ht]; omega)]
  · rw [if_neg h, if_neg h]

/-- Lowercasing is idempotent. -/
theorem lower_idem (s : Str) : lower (lower s) = lower s := by
  simp only [lower, List.map_map]
  exact List.map_congr_left fun c _ => char_toLower_idem c

/-- Substring containment is preserved by lowercasing both sides. -/
theorem inStr_lower_of_inStr (n h : Str) (hin : inStr n h = true) :
    inStr (lower n) (lower h) = true := by
  rw [inStr_substring_iff] at hin ⊢
  exact hin.map Char.toLower

/-!
### Lemmas about the search pipeline
-/

/-- In an association list with duplicate-free keys, a key determines its
value. -/
theorem nodup_keys_unique {k : Str} {a b : DocInfo} :
    ∀ (l : List (Str × DocInfo)), (l.map Prod.fst).Nodup →
      (k, a) ∈ l → (k, b) ∈ l → a = b := by
  intro l
  induction l with
  | nil => intro _ h; cases h
  | cons p t ih =>
    intro hnd h1 h2
    simp only [List.map_cons, List.nodup_cons] at hnd
    rcases List.mem_cons.mp h1 with h1 | h1 <;>
      rcases List.mem_cons.mp h2 with h2 | h2
    · rw [← h2] at h1; exact congrArg Prod.snd h1
    · exact absurd (List.mem_map_of_mem Prod.fst h2)
        (by rw [← h1] at hnd; exact hnd.1)
    · exact absurd (List.mem_map_of_mem Prod.fst h1)
        (by rw [← h2] at hnd; exact hnd.1)
    · exact ih hnd.2 h1 h2

/-- Membership in the emitted (pre-sort) result list. -/
theorem mem_searchEmitted_iff (st : Store) (q : Str) (r : SearchResult) :
    r ∈ searchEmitted st q ↔
      ∃ e ∈ st.index, ∃ c, fsRead st.files e.2.markdown_file = some c ∧
        searchDoc (lower q) (extractKeywords (lower q)) e.1 e.2 c = some r := by
  simp only [searchEmitted, List.mem_filterMap]
  constructor
  · rintro ⟨e, he, hf⟩
    refine ⟨e, he, ?_⟩
    cases hread : fsRead st.files e.2.markdown_file with
    | none => rw [hread] at hf; cases hf
    | some c => rw [hread] at hf; exact ⟨c, rfl, hf⟩
  · rintro ⟨e, he, c, hread, hdoc⟩
    exact ⟨e, he, by rw [hread]; exact hdoc⟩

/-- A produced result carries the id of its document and the computed
score. -/
theorem searchDoc_some {ql : Str} {kws : List Str} {doc_id : Str} {info : DocInfo}
    {c : Str} {r : SearchResult}
    (h : searchDoc ql kws doc_id info c = some r) :
    r.document_id = doc_id ∧ r.score = docScore ql kws (lower c) := by
  simp only [searchDoc] at h
  repeat split at h
  all_goals try cases h
  all_goals exact ⟨rfl, rfl⟩

/-- A document whose score is zero emits no result. -/
theorem searchDoc_none_of_score_zero {ql : Str} {kws : List Str} {doc_id : Str}
    {info : DocInfo} {c : Str}
    (h : docScore ql kws (lower c) = 0) :
    searchDoc ql kws doc_id info c = none := by
  simp [searchDoc, h]

/-- Returned results are drawn from the emitted list. -/
theorem mem_searchEmitted_of_mem_searchDocuments {st : Store} {q : Str} {k : Nat}
    {r : SearchResult} (h : r ∈ searchDocuments st q k) :
    r ∈ searchEmitted st q := by
  unfold searchDocuments at h
  exact (List.mergeSort_perm (searchEmitted st q) resultLE).mem_iff.mp
    (List.mem_of_mem_take h)

/-- `resultLE` is transitive. -/
theorem resultLE_trans (a b c : SearchResult) :
    resultLE a b → resultLE b c → resultLE a c := by
  simp only [resultLE, decide_eq_true_eq]
  omega

/-- `resultLE` is total. -/
theorem resultLE_total (a b : SearchResult) : resultLE a b || resultLE b a := by
  simp only [resultLE]
  by_cases h : b.score ≤ a.score
  · simp [h]
  · simp [Nat.le_of_lt (Nat.lt_of_not_le h)]

/-- The empty needle is a substring of everything. -/
theorem inStr_nil (h : Str) : inStr [] h = true := by
  cases h <;> simp [inStr, List.isPrefixOf]

/-- Nothing survives lookup in a list filtered on a different key. -/
theorem lookup_filter_self (x : Str) :
    ∀ (l : List (Str × Str)), List.lookup x (l.filter (fun e => ¬ e.1 = x)) = none := by
  intro l
  induction l with
  | nil => rfl
  | cons p t ih =>
    by_cases hp : p.1 = x
    · simpa [List.filter_cons, hp] using ih
    · simpa [List.filter_cons, hp, List.lookup, beq_eq_false_iff_ne.mpr (Ne.symm hp)] using ih

/-!
### Claim C1 — keyword contribution to the search score
-/

/-- C1 counterexample: the claim says the keyword contribution is 3 per
distinct extracted keyword occurring in the content, with duplicates in the
extractor output counted at most once.  For the query "api api" the
extractor output is ["api", "api"]; on a content containing "api" the loop
adds 3 for each list entry, giving 6, while 3 per distinct occurring keyword
would give 3. -/
theorem C1_keyword_score_counterexample :
    extractKeywords (lower (strOf "api api")) = [strOf "api", strOf "api"] ∧
    keywordScore (extractKeywords (lower (strOf "api api"))) (lower (strOf "x api y")) = 6 ∧
    ((extractKeywords (lower (strOf "api api"))).dedup.countP
      (fun kw => inStr kw (lower (strOf "x api y")))) = 1 ∧
    ¬ keywordScore (extractKeywords (lower (strOf "api api"))) (lower (strOf "x api y")) =
      3 * ((extractKeywords (lower (strOf "api api"))).dedup.countP
        (fun kw => inStr kw (lower (strOf "x api y")))) := by
  refine ⟨by decide, by decide, by decide, by decide⟩

/-- C1 (amended): the keyword contribution to the search score is 3 per
entry of the extracted keyword list that occurs as a substring of the
lowercased content — each list entry counts at most once regardless of how
often it occurs in the content, but a keyword repeated in the extractor
output (duplicates are kept) contributes 3 for each repetition. -/
theorem C1_keyword_score (query content : Str) :
    keywordScore (extractKeywords (lower query)) (lower content) =
      3 * (extractKeywords (lower query)).countP
        (fun kw => inStr kw (lower content)) :=
  keywordScore_eq_countP (extractKeywords (lower query)) (lower content)

/-!
### Claim C2 — chunking of short texts
-/

/-- C2 counterexample: for the input `" a "` (length 3 ≤ chunk size) the
chunker returns the text unchanged, not the trimmed text claimed by the
spec. -/
theorem C2_short_text_counterexample :
    splitTextIntoChunks 1000 200 0 (strOf " a ") = some [strOf " a "] ∧
    pyStrip (strOf " a ") = strOf "a" ∧
    ¬ splitTextIntoChunks 1000 200 0 (strOf " a ") = some [pyStrip (strOf " a ")] := by
  refine ⟨by decide, by decide, by decide⟩

/-- C2 (amended): for every text with `len(text) ≤ chunk_size` the chunker
returns exactly one chunk, and that chunk is the input text unchanged (no
whitespace trimming happens on this path). -/
theorem C2_short_text (cs co fuel : Nat) (text : Str) (h : text.length ≤ cs) :
    splitTextIntoChunks cs co fuel text = some [text] := by
  simp [splitTextIntoChunks, h]

/-- C2 witness at a concrete short input. -/
theorem C2_short_text_witness :
    splitTextIntoChunks 1000 200 0 (strOf " a ") = some [strOf " a "] :=
  C2_short_text 1000 200 0 (strOf " a ") (by decide)

/-!
### Claim C3 — termination of the chunking loop
-/

/-- When `chunk_overlap < chunk_size` and
`chunk_overlap ≤ chunk_size / 2 + 1`, each loop iteration advances the
window start by at least one character. -/
theorem chunkBody_advance (cs co : Nat) (text : Str) (start : Int)
    (h1 : co < cs) (h2 : co ≤ cs / 2 + 1) :
    start + 1 ≤ (chunkBody cs co text start).2 := by
  simp only [chunkBody]
  split
  · split
    · rename_i hcond
      have hlp := hcond.2
      omega
    · omega
  · omega

/-- With positive net advancement, `text.length ≤ start + fuel` iterations of
fuel are enough for the loop to exit. -/
theorem chunkLoop_some (cs co : Nat) (text : Str)
    (h1 : co < cs) (h2 : co ≤ cs / 2 + 1) :
    ∀ (fuel : Nat) (start : Int) (chunks : List Str),
      (text.length : Int) ≤ start + fuel →
      (chunkLoop cs co text fuel start chunks).isSome = true := by
  intro fuel
  induction fuel with
  | zero =>
    intro start chunks hb
    rw [chunkLoop]
    rw [if_neg (by omega)]
    rfl
  | succ n ih =>
    intro start chunks hb
    simp only [chunkLoop]
    split
    · rename_i hlt
      have hadv := chunkBody_advance cs co text start h1 h2
      split
      · rfl
      · rename_i hbreak
        exact ih _ _ (by push_cast at hb ⊢; omega)
    · rfl

/-- C3 counterexample: with `chunk_size = 10` and `chunk_overlap = 8`
(so `chunk_overlap < chunk_size`) the loop body maps window start 0 back to
start 0 on `chunkCexText` (the sentence boundary shrinks the window end to 8
and `8 - 8 = 0`), and the loop returns no result for any amount of fuel:
the start never reaches the end of the text. -/
theorem C3_termination_counterexample :
    (8 : Nat) < 10 ∧
    (chunkBody 10 8 chunkCexText 0).2 = 0 ∧
    (0 : Int) < (chunkCexText.length : Int) ∧
    ∀ (fuel : Nat) (chunks : List Str),
      chunkLoop 10 8 chunkCexText fuel 0 chunks = none := by
  refine ⟨by decide, by decide, by decide, ?_⟩
  intro fuel
  induction fuel with
  | zero =>
    intro chunks
    rw [chunkLoop, if_pos (by decide)]
  | succ n ih =>
    intro chunks
    have hb : chunkBody 10 8 chunkCexText 0 = (strOf "aaaaaaa.", 0) := by decide
    rw [chunkLoop, if_pos (by decide), hb]
    rw [if_neg (by decide), if_neg (by decide)]
    exact ih _

/-- C3 (amended): the chunking loop terminates for every input text whenever
`chunk_overlap < chunk_size` AND `chunk_overlap ≤ chunk_size / 2 + 1` (net
advancement is then positive, and `len(text)` iterations suffice); with
`chunk_size / 2 + 1 < chunk_overlap < chunk_size` the sentence-boundary
shrink can make the loop fail to advance, so not only
`chunk_overlap ≥ chunk_size` configurations are unsafe. -/
theorem C3_termination (cs co : Nat) (text : Str)
    (h1 : co < cs) (h2 : co ≤ cs / 2 + 1) :
    (splitTextIntoChunks cs co text.length text).isSome = true := by
  unfold splitTextIntoChunks
  split
  · rfl
  · exact chunkLoop_some cs co text h1 h2 text.length 0 [] (by omega)

/-- C3 witness at a concrete configuration (`chunk_size = 10`,
`chunk_overlap = 6`) on the counterexample text. -/
theorem C3_termination_witness :
    (splitTextIntoChunks 10 6 chunkCexText.length chunkCexText).isSome = true :=
  C3_termination 10 6 chunkCexText (by decide) (by decide)

/-!
### Claim C4 — exact-phrase floor and no-match exclusion
-/

/-- C4: (i) a document whose stored content contains the lowercased query as
a substring is scored at least 10 (both as the computed score and on any
emitted result), and (ii) a document containing neither the exact phrase nor
any extracted keyword never appears in the returned results. -/
theorem C4_phrase_floor_and_exclusion (st : Store) (query : Str) (k : Nat) :
    (∀ content, inStr (lower query) content = true →
      10 ≤ docScore (lower query) (extractKeywords (lower query)) (lower content)) ∧
    (∀ id info content r, inStr (lower query) content = true →
      searchDoc (lower query) (extractKeywords (lower query)) id info content = some r →
      10 ≤ r.score) ∧
    ((st.index.map Prod.fst).Nodup →
      ∀ id info content, (id, info) ∈ st.index →
        fsRead st.files info.markdown_file = some content →
        inStr (lower query) (lower content) = false →
        (∀ kw ∈ extractKeywords (lower query), inStr kw (lower content) = false) →
        ∀ r ∈ searchDocuments st query k, ¬ r.document_id = id) := by
  have hfloor : ∀ content, inStr (lower query) content = true →
      10 ≤ docScore (lower query) (extractKeywords (lower query)) (lower content) := by
    intro content hin
    have hphrase : inStr (lower query) (lower content) = true := by
      have := inStr_lower_of_inStr (lower query) content hin
      rwa [lower_idem] at this
    simp only [docScore, hphrase, if_true]
    omega
  refine ⟨hfloor, ?_, ?_⟩
  · intro id info content r hin hdoc
    rw [(searchDoc_some hdoc).2]
    exact hfloor content hin
  · intro hnd id info content hmem hread hph hkw r hr hid
    have hemit := mem_searchEmitted_of_mem_searchDocuments hr
    obtain ⟨e, he, c, hreadc, hdoc⟩ := (mem_searchEmitted_iff st query r).mp hemit
    obtain ⟨hid', -⟩ := searchDoc_some hdoc
    have heid : e.1 = id := by rw [← hid', hid]
    have hinfo : e.2 = info := by
      refine nodup_keys_unique st.index hnd ?_ hmem
      rw [← heid]
      simpa using he
    rw [hinfo, hread] at hreadc
    cases hreadc
    have hzero : docScore (lower query) (extractKeywords (lower query)) (lower content) = 0 := by
      simp only [docScore, hph, if_false, keywordScore_eq_countP]
      rw [List.countP_eq_zero.mpr (by intro kw hkwm; simp [hkw kw hkwm])]
      simp
    rw [searchDoc_none_of_score_zero hzero] at hdoc
    cases hdoc

/-!
### Claim C5 — ordering, stability, truncation
-/

/-- C5: the returned list has length at most `max_results` and is ordered by
score descending; the sort is stable — any two emitted results with equal
scores keep their index-iteration order in the sorted list that the returned
list is a prefix of. -/
theorem C5_order_stable_truncated (st : Store) (query : Str) (k : Nat)
    (a b : SearchResult) (hab : a.score = b.score)
    (hsub : List.Sublist [a, b] (searchEmitted st query)) :
    (searchDocuments st query k).length ≤ k ∧
    (searchDocuments st query k).Pairwise (fun x y => y.score ≤ x.score) ∧
    List.Sublist [a, b] ((searchEmitted st query).mergeSort resultLE) := by
  refine ⟨List.length_take_le k _, ?_, ?_⟩
  · have hsorted := @List.sorted_mergeSort SearchResult resultLE
      resultLE_trans resultLE_total (searchEmitted st query)
    have := hsorted.sublist (List.take_sublist k _)
    exact this.imp (by intro x y hxy; simpa [resultLE] using hxy)
  · exact List.pair_sublist_mergeSort resultLE_trans resultLE_total
      (by simp [resultLE, hab]) hsub

/-!
### Claim C9 — search is read-only and skips unreadable artifacts
-/

/-- C9: the search method leaves the store unchanged, and an index record
whose artifact is unreadable contributes no result (while remaining in the
index). -/
theorem C9_search_read_only (st : Store) (query : Str) (k : Nat) :
    (searchDocumentsS st query k).1 = st ∧
    ((st.index.map Prod.fst).Nodup →
      ∀ id info, (id, info) ∈ st.index →
        fsRead st.files info.markdown_file = none →
        ∀ r ∈ (searchDocumentsS st query k).2, ¬ r.document_id = id) := by
  refine ⟨rfl, ?_⟩
  intro hnd id info hmem hread r hr hid
  have hemit := mem_searchEmitted_of_mem_searchDocuments hr
  obtain ⟨e, he, c, hreadc, hdoc⟩ := (mem_searchEmitted_iff st query r).mp hemit
  obtain ⟨hid', -⟩ := searchDoc_some hdoc
  have heid : e.1 = id := by rw [← hid', hid]
  have hinfo : e.2 = info := by
    refine nodup_keys_unique st.index hnd ?_ hmem
    rw [← heid]
    simpa using he
  rw [hinfo, hread] at hreadc
  cases hreadc

/-!
### Claim C10 — the empty query matches everything readable
-/

/-- C10: for the empty query the exact-phrase test succeeds on every
content, so every readable document scores exactly 10 (the keyword list is
empty), is emitted whenever some context line survives the length filter,
and the returned list is the `max_results`-prefix of the emitted results —
an empty query is not rejected. -/
theorem C10_empty_query (st : Store) (id : Str) (info : DocInfo) (content : Str)
    (hmem : (id, info) ∈ st.index)
    (hread : fsRead st.files info.markdown_file = some content)
    (hline : ¬ relevantLineChunks [] [] (splitNl content) = []) :
    inStr [] (lower content) = true ∧
    docScore (lower ([] : Str)) (extractKeywords (lower ([] : Str))) (lower content) = 10 ∧
    (∃ r, r ∈ searchEmitted st [] ∧ r.document_id = id ∧ r.score = 10) ∧
    (∀ k, (searchDocuments st [] k).length = min k (searchEmitted st []).length) := by
  have hkws : extractKeywords (lower ([] : Str)) = [] := by decide
  have hscore : docScore (lower ([] : Str)) (extractKeywords (lower ([] : Str)))
      (lower content) = 10 := by
    rw [hkws]
    simp [docScore, inStr_nil, keywordScore, lower]
  refine ⟨inStr_nil (lower content), hscore, ?_, ?_⟩
  · have hne : searchDoc (lower ([] : Str)) (extractKeywords (lower ([] : Str)))
        id info content ≠ none := by
      simp only [searchDoc, hscore]
      rw [if_pos (by omega)]
      have hie : (relevantLineChunks (lower ([] : Str)) (extractKeywords (lower ([] : Str)))
          (splitNl content)).isEmpty = false := by
        rw [hkws]
        simpa [List.isEmpty_iff] using hline
      simp [hie]
    obtain ⟨r, hr⟩ := Option.ne_none_iff_exists'.mp hne
    refine ⟨r, (mem_searchEmitted_iff st [] r).mpr ⟨(id, info), hmem, content, hread, hr⟩,
      (searchDoc_some hr).1, ?_⟩
    rw [(searchDoc_some hr).2, hscore]
  · intro k
    unfold searchDocuments
    rw [List.length_take, List.length_mergeSort]

/-!
### Claim C6 — upload validation has no side effects
-/

/-- C6: an upload whose filename extension is not on the allow-list or whose
size exceeds the configured maximum is rejected with a validation error, and
the system state (raw uploads, artifacts, document index) is returned
unchanged. -/
theorem C6_validation_no_mutation (env : UploadEnv) (fuel : Nat) (st : SysState)
    (file_content filename : Str)
    (h : ¬ (allowedExtensionsList env.settings).contains (fileExtension filename) ∨
         env.settings.max_file_size < file_content.length) :
    uploadDocument env fuel st file_content filename =
      some (st, .uploadError (strOf "Error processing document: " ++
        (validateFile env.settings filename file_content.length).2)) := by
  have hv : (validateFile env.settings filename file_content.length).1 = false := by
    by_cases hmem : fileExtension filename ∈ allowedExtensionsList env.settings
    · have hsize : env.settings.max_file_size < file_content.length := by
        rcases h with h | h
        · simp at h
          exact absurd hmem h
        · exact h
      simp [validateFile, hmem, hsize]
    · simp [validateFile, hmem]
  simp [uploadDocument, hv]

/-!
### Claim C7 — empty retrieval context short-circuits answer generation
-/

/-- C7: when retrieval produced no context documents, or only documents with
empty content, `generate_response` returns the fixed no-relevant-information
message before any client call — in particular it never invokes the LLM. -/
theorem C7_no_context_no_llm (query : Str) (docs : List SearchResult) (hasClient : Bool)
    (h : docs = [] ∨ ∀ d ∈ docs, d.content = []) :
    generateResponsePlan query docs hasClient = .fixedMessage noContextMessage ∧
    ∀ p, ¬ generateResponsePlan query docs hasClient = .invokeOpenAI p := by
  have hctx : prepareContext docs = [] := by
    rcases h with h | h
    · subst h; rfl
    · unfold prepareContext
      split
      · rfl
      · rw [List.filterMap_eq_nil_iff.mpr ?_]
        · rfl
        · intro p hp
          have hd : p.2 ∈ docs := by
            have := List.mem_map_of_mem Prod.snd hp
            rwa [List.enum_map_snd] at this
          simp [h p.2 hd, pyStrip]
  have hfix : generateResponsePlan query docs hasClient = .fixedMessage noContextMessage := by
    simp [generateResponsePlan, hctx]
  exact ⟨hfix, fun p hp => by rw [hfix] at hp; cases hp⟩

/-!
### Claim C8 — deletion semantics
-/

/-- C8: deleting an absent id returns false and leaves the state unchanged;
deleting a present id returns true, removes the artifact (a pre-existing
absence being equally fine), removes the index record, and the id no longer
appears in a subsequent listing. -/
theorem C8_delete_semantics (st : Store) (doc_id : Str) :
    (List.lookup doc_id st.index = none → deleteDocument st doc_id = (st, false)) ∧
    (∀ info, List.lookup doc_id st.index = some info →
      (deleteDocument st doc_id).2 = true ∧
      fsRead (deleteDocument st doc_id).1.files info.markdown_file = none ∧
      (∀ e ∈ (deleteDocument st doc_id).1.index, ¬ e.1 = doc_id) ∧
      (∀ e ∈ getAllDocuments (deleteDocument st doc_id).1, ¬ e.1 = doc_id)) := by
  constructor
  · intro h
    simp [deleteDocument, h]
  · intro info h
    simp only [deleteDocument, h]
    refine ⟨trivial, ?_, ?_, ?_⟩
    · exact lookup_filter_self info.markdown_file st.files
    · intro e he
      simpa using List.of_mem_filter he
    · intro e he
      obtain ⟨a, ha, hfa⟩ := List.mem_map.mp he
      have h1 : ¬ a.1 = doc_id := by simpa using List.of_mem_filter ha
      rw [← hfa]
      exact h1

/-!
### Concrete witnesses
-/

/-- Evaluation of the demo search: the two emitted results are already in
sorted order (`mergeSort` is opaque to kernel reduction, so the sort is
discharged with `mergeSort_of_sorted`). -/
theorem demoSearch_eval : searchDocuments demoStore demoQuery 5 = [demoResult1, demoResult2] := by
  unfold searchDocuments
  rw [show searchEmitted demoStore demoQuery = [demoResult1, demoResult2] from by decide]
  rw [List.mergeSort_of_sorted (by decide)]
  rfl

/-- C4 witness: on the demo store with query "hello", the phrase-containing
content scores at least 10 and the first returned result is not the
no-match document d4. -/
theorem C4_witness :
    10 ≤ docScore (lower demoQuery) (extractKeywords (lower demoQuery)) (lower demoContent) ∧
    ¬ demoResult1.document_id = strOf "d4" := by
  refine ⟨(C4_phrase_floor_and_exclusion demoStore demoQuery 5).1 demoContent (by decide), ?_⟩
  exact (C4_phrase_floor_and_exclusion demoStore demoQuery 5).2.2 (by decide)
    (strOf "d4") demoInfo4 demoContent4 (by decide) (by decide) (by decide) (by decide)
    demoResult1 (by rw [demoSearch_eval]; decide)

/-- C5 witness: the two equal-score results emitted for "hello" on the demo
store keep their iteration order through the sort. -/
theorem C5_witness :
    List.Sublist [demoResult1, demoResult2]
      ((searchEmitted demoStore demoQuery).mergeSort resultLE) :=
  (C5_order_stable_truncated demoStore demoQuery 5 demoResult1 demoResult2
    (by decide)
    (by rw [show searchEmitted demoStore demoQuery = [demoResult1, demoResult2] from by decide])).2.2

/-- C6 witness: uploading "evil.exe" is rejected and mutates nothing. -/
theorem C6_witness :
    uploadDocument demoEnv 0 demoSys (strOf "x") (strOf "evil.exe") =
      some (demoSys, .uploadError (strOf "Error processing document: " ++
        (validateFile demoEnv.settings (strOf "evil.exe") (strOf "x").length).2)) :=
  C6_validation_no_mutation demoEnv 0 demoSys (strOf "x") (strOf "evil.exe")
    (Or.inl (by decide))

/-- C7 witness: with no retrieved documents the fixed message is returned. -/
theorem C7_witness :
    generateResponsePlan (strOf "q") [] true = .fixedMessage noContextMessage :=
  (C7_no_context_no_llm (strOf "q") [] true (Or.inl rfl)).1

/-- C8 witness: deleting the present id d1 returns true. -/
theorem C8_witness : (deleteDocument demoStore (strOf "d1")).2 = true :=
  ((C8_delete_semantics demoStore (strOf "d1")).2 demoInfo1 (by decide)).1

/-- C9 witness: the first result for "hello" does not come from the stale
record d3, whose artifact is missing. -/
theorem C9_witness : ¬ demoResult1.document_id = strOf "d3" :=
  (C9_search_read_only demoStore demoQuery 5).2 (by decide)
    (strOf "d3") demoInfo3 (by decide) (by decide) demoResult1
    (by show demoResult1 ∈ searchDocuments demoStore demoQuery 5
        rw [demoSearch_eval]; decide)

/-- C10 witness: on the demo store the empty query scores document d1 with
exactly 10. -/
theorem C10_witness :
    docScore (lower ([] : Str)) (extractKeywords (lower ([] : Str))) (lower demoContent) = 10 :=
  (C10_empty_query demoStore (strOf "d1") demoInfo1 demoContent
    (by decide) (by decide) (by decide)).2.1

end MiniRag
